import Mathlib

/-!
Verification of the WebDAV HEAD-request stress tester
(`py_webdav_stress_test.py`).

The embedding models:
* the per-request outcome classification and stats update performed by
  `fetch_head` (its `try`/`except aiohttp.ClientError`/`except
  asyncio.TimeoutError`/`finally` structure),
* a run as a fold of completed-request events over the shared `stats`
  dictionary,
* the `asyncio.Semaphore` concurrency gate as a guarded transition system,
* target-URL construction (`rstrip('/')`, `/evidence/`, `%02X` formatting
  of `random.randint(0, 255)`),
* the progress/pacing schedule of the submission loop,
* the RPS guard and the sorted status-code report.
-/

namespace WebdavStress

/-- Outcome of the `session.head(url)` call inside `fetch_head`, as seen by
the `try`/`except` dispatch (clauses are tried in program order):
* `response status`: an HTTP response was received with the given status;
* `clientError`: the call raised an exception matching `aiohttp.ClientError`;
* `timeoutError`: the call raised an exception matching
  `asyncio.TimeoutError` (and not `aiohttp.ClientError`, which is tried
  first) — in particular the connect-phase timeout;
* `otherExc`: the call raised an exception matching neither clause. -/
inductive NetOutcome where
  | response (status : Nat)
  | clientError
  | timeoutError
  | otherExc
deriving DecidableEq, Repr

/-- The shared `stats` dictionary created in `main`.  The `Counter` for
`status_code_counts` is modelled as an association list whose keys are
created on first occurrence (as `Counter` does); latencies are modelled as
integers (only their count and the end-minus-start shape matter here). -/
structure Stats where
  total_requests : Nat
  successful_requests : Nat
  failed_requests : Nat
  status_code_counts : List (String × Nat)
  total_time_per_request : List Int
deriving DecidableEq, Repr

/-- `Counter` increment: `stats['status_code_counts'][status] += 1` — bump
the entry for `k`, creating it with value 1 on first occurrence. -/
def incrCounter (k : String) : List (String × Nat) → List (String × Nat)
  | [] => [(k, 1)]
  | (k', v) :: rest =>
      if k' = k then (k', v + 1) :: rest else (k', v) :: incrCounter k rest

/-- Sum of all values of the counter. -/
def sumCounts (c : List (String × Nat)) : Nat := (c.map Prod.snd).sum

/-- The `try` body plus the two `except` clauses of `fetch_head`: on each
handled branch it yields the local variable `status` together with the
counter update done in that branch; on an unhandled exception (`otherExc`)
`status` is never assigned, modelled as `none`. -/
def tryExceptStep (o : NetOutcome) (s : Stats) : Option (String × Stats) :=
  match o with
  | .response st =>
      some (toString st,
        { s with successful_requests := s.successful_requests + 1 })
  | .clientError =>
      some ("NetworkError",
        { s with failed_requests := s.failed_requests + 1 })
  | .timeoutError =>
      some ("Timeout",
        { s with failed_requests := s.failed_requests + 1 })
  | .otherExc => none

/-- The stats effect of one `fetch_head` call whose HEAD request started at
`startT`, finished (or failed) at `endT`, and had outcome `o`.  The
`finally` clause increments `status_code_counts[status]` and then appends
`endT - startT` to `total_time_per_request`; when `status` was never
assigned the `finally` clause itself raises on the unbound name before
touching either, so nothing at all is recorded (`none`). -/
def fetch_head (o : NetOutcome) (startT endT : Int) (s : Stats) :
    Option Stats :=
  match tryExceptStep o s with
  | none => none
  | some (status, s1) =>
      some { s1 with
        status_code_counts := incrCounter status s1.status_code_counts,
        total_time_per_request :=
          s1.total_time_per_request ++ [endT - startT] }

/-- One completed-request event of a run: the outcome of the HEAD call and
its start/end timestamps. -/
structure ReqEvent where
  outcome : NetOutcome
  startT : Int
  endT : Int
deriving DecidableEq, Repr

/-- The `stats` dictionary as initialized in `main` for a run of `n`
requests. -/
def initStats (n : Nat) : Stats :=
  { total_requests := n
    successful_requests := 0
    failed_requests := 0
    status_code_counts := []
    total_time_per_request := [] }

/-- Effect of one completed request on the shared stats: apply
`fetch_head`; if its recording step raised (unhandled exception), the
stats are left untouched. -/
def stepStats (s : Stats) (e : ReqEvent) : Stats :=
  match fetch_head e.outcome e.startT e.endT s with
  | some s' => s'
  | none => s

/-- The shared stats after the completed-request updates listed in
`events` have been applied, in order, to the initial stats of a run of `n`
requests.  Each per-request update is one critical section (the sub-updates
of a single request are not interleaved with another request's). -/
def runStats (n : Nat) (events : List ReqEvent) : Stats :=
  events.foldl stepStats (initStats n)

/-! ### The concurrency gate (`asyncio.Semaphore(args.concurrency)`) -/

/-- An event on the semaphore: a request entering `async with semaphore`
(acquire) or leaving it (release). -/
inductive SemEvent where
  | acquire
  | release
deriving DecidableEq, Repr

/-- State of the gate: the semaphore's internal value (free slots) and the
number of requests currently holding a slot (acquired, not yet released). -/
structure SemState where
  value : Nat
  holders : Nat
deriving DecidableEq, Repr

/-- `asyncio.Semaphore(c)` starts with value `c` and no holders. -/
def semInit (c : Nat) : SemState := { value := c, holders := 0 }

/-- One gate transition.  An acquire only proceeds when the internal value
is positive (otherwise the acquiring request blocks — no transition); a
release is only issued by a current holder, since in `fetch_head` the whole
body sits inside `async with semaphore`, which releases exactly what it
acquired on every exit path. -/
def semStep (s : SemState) (e : SemEvent) : Option SemState :=
  match e with
  | .acquire =>
      if s.value > 0 then
        some { value := s.value - 1, holders := s.holders + 1 }
      else none
  | .release =>
      if s.holders > 0 then
        some { value := s.value + 1, holders := s.holders - 1 }
      else none

/-- Run a sequence of gate events from a state; `none` when some event in
the sequence is not enabled. -/
def semRun (s : SemState) : List SemEvent → Option SemState
  | [] => some s
  | e :: es =>
      match semStep s e with
      | some s' => semRun s' es
      | none => none

/-! ### Target-URL construction in the submission loop -/

/-- Python `str.rstrip('/')`: remove all trailing `'/'` characters. -/
def rstripSlash (s : String) : String :=
  ⟨(s.data.reverse.dropWhile (· = '/')).reverse⟩

/-- One uppercase hexadecimal digit, as produced by Python `format(_, 'X')`
for a digit value below 16. -/
def hexDigit (n : Nat) : Char :=
  if n < 10 then Char.ofNat (48 + n) else Char.ofNat (55 + n)

/-- Python `f"{b:02X}"` for `b` in the `random.randint(0, 255)` range:
zero-padded two-digit uppercase hexadecimal. -/
def toHex2 (b : Nat) : String :=
  ⟨[hexDigit (b / 16), hexDigit (b % 16)]⟩

/-- `target_url = f"{args.target_base_url.rstrip('/')}/evidence/{random_hex}"`
where `random_hex` renders the drawn byte `b`. -/
def targetUrl (base : String) (b : Nat) : String :=
  rstripSlash base ++ "/evidence/" ++ toHex2 b

/-- Is `c` one of the sixteen uppercase hexadecimal digit characters? -/
def isUpperHexDigit (c : Char) : Bool :=
  ("0".data ++ "123456789ABCDEF".data).contains c

/-- Decode one uppercase hexadecimal digit character. -/
def hexVal (c : Char) : Nat :=
  if c.toNat ≤ 57 then c.toNat - 48 else c.toNat - 55

/-- Decode a two-character uppercase hexadecimal string. -/
def fromHex2 (s : String) : Nat :=
  match s.data with
  | [c1, c2] => 16 * hexVal c1 + hexVal c2
  | _ => 0

/-! ### Progress and pacing in the submission loop -/

/-- The progress line written (if any) right after the `n`-th submission
(`n = i + 1`) of a run of `total` requests, mirroring the
`if (i+1) % 10000 == 0 ... elif (i+1) % 1000 == 0 or (i+1) == request_count`
chain in `main`. -/
def progressOutput (n total : Nat) : Option String :=
  if n % 10000 == 0 then
    some ("\rProgress: " ++ toString n ++ "/" ++ toString total ++
      " requests processed. Pausing for 1 sec...")
  else if n % 1000 == 0 || n == total then
    some ("\rProgress: " ++ toString n ++ "/" ++ toString total ++
      " requests processed.")
  else none

/-- Whether a progress line is emitted right after the `n`-th submission. -/
def emitsLine (n total : Nat) : Bool :=
  (progressOutput n total).isSome

/-- Whether the submission loop executes `time.sleep(1)` right after the
`n`-th submission: only in the `(i+1) % 10000 == 0` branch. -/
def pausesAfter (n _total : Nat) : Bool :=
  n % 10000 == 0

/-! ### Report computation -/

/-- `rps = stats['total_requests'] / overall_duration if overall_duration > 0
else 0`.  The duration is modelled as a rational number. -/
def rps (total : Nat) (overall_duration : ℚ) : ℚ :=
  if overall_duration > 0 then (total : ℚ) / overall_duration else 0

/-- `sorted(stats['status_code_counts'].items())`: the counter's entries in
ascending order of label (keys of a `Counter` are distinct, so Python's
tuple ordering coincides with ordering by label). -/
def sortedItems (c : List (String × Nat)) : List (String × Nat) :=
  List.insertionSort (fun a b : String × Nat => a.1 ≤ b.1) c

/-! ### Helper lemmas -/

lemma sumCounts_incrCounter (k : String) (c : List (String × Nat)) :
    sumCounts (incrCounter k c) = sumCounts c + 1 := by
  induction c with
  | nil => simp [incrCounter, sumCounts]
  | cons p rest ih =>
      obtain ⟨k', v⟩ := p
      by_cases h : k' = k <;>
        simp [incrCounter, sumCounts, h] <;>
        simp [sumCounts] at ih <;> omega

lemma incrCounter_keys (k : String) (c : List (String × Nat)) :
    (incrCounter k c).map Prod.fst =
      if k ∈ c.map Prod.fst then c.map Prod.fst
      else c.map Prod.fst ++ [k] := by
  induction c with
  | nil => simp [incrCounter]
  | cons p rest ih =>
      obtain ⟨k', v⟩ := p
      by_cases h : k' = k
      · simp [incrCounter, h]
      · by_cases hm : k ∈ rest.map Prod.fst <;>
          simp [incrCounter, h, hm, ih, Ne.symm h]

lemma nodup_incrCounter (k : String) (c : List (String × Nat))
    (h : (c.map Prod.fst).Nodup) :
    ((incrCounter k c).map Prod.fst).Nodup := by
  rw [incrCounter_keys]
  by_cases hm : k ∈ c.map Prod.fst
  · simpa [hm] using h
  · simp only [hm, if_false]
    exact h.append (List.nodup_singleton k)
      (by simpa [List.disjoint_singleton] using hm)

lemma stepStats_total (s : Stats) (e : ReqEvent) :
    (stepStats s e).total_requests = s.total_requests := by
  cases e with
  | mk o st en => cases o <;> simp [stepStats, fetch_head, tryExceptStep]

lemma stepStats_handled (s : Stats) (e : ReqEvent)
    (h : e.outcome ≠ NetOutcome.otherExc) :
    (stepStats s e).successful_requests + (stepStats s e).failed_requests
        = s.successful_requests + s.failed_requests + 1
    ∧ sumCounts (stepStats s e).status_code_counts
        = sumCounts s.status_code_counts + 1
    ∧ (stepStats s e).total_time_per_request.length
        = s.total_time_per_request.length + 1 := by
  cases e with
  | mk o st en =>
      cases o with
      | otherExc => exact absurd rfl h
      | response code =>
          refine ⟨by simp [stepStats, fetch_head, tryExceptStep]; omega, ?_, ?_⟩ <;>
            simp [stepStats, fetch_head, tryExceptStep, sumCounts_incrCounter]
      | clientError =>
          refine ⟨by simp [stepStats, fetch_head, tryExceptStep]; omega, ?_, ?_⟩ <;>
            simp [stepStats, fetch_head, tryExceptStep, sumCounts_incrCounter]
      | timeoutError =>
          refine ⟨by simp [stepStats, fetch_head, tryExceptStep]; omega, ?_, ?_⟩ <;>
            simp [stepStats, fetch_head, tryExceptStep, sumCounts_incrCounter]

lemma stepStats_nodup (s : Stats) (e : ReqEvent)
    (h : (s.status_code_counts.map Prod.fst).Nodup) :
    ((stepStats s e).status_code_counts.map Prod.fst).Nodup := by
  cases e with
  | mk o st en =>
      cases o with
      | response code =>
          simpa [stepStats, fetch_head, tryExceptStep] using
            nodup_incrCounter (toString code) _ h
      | clientError =>
          simpa [stepStats, fetch_head, tryExceptStep] using
            nodup_incrCounter "NetworkError" _ h
      | timeoutError =>
          simpa [stepStats, fetch_head, tryExceptStep] using
            nodup_incrCounter "Timeout" _ h
      | otherExc => simpa [stepStats, fetch_head, tryExceptStep] using h

lemma foldStats_handled (events : List ReqEvent) (s : Stats)
    (hall : ∀ e ∈ events, e.outcome ≠ NetOutcome.otherExc) :
    ((events.foldl stepStats s).successful_requests
        + (events.foldl stepStats s).failed_requests
      = s.successful_requests + s.failed_requests + events.length)
    ∧ (sumCounts (events.foldl stepStats s).status_code_counts
      = sumCounts s.status_code_counts + events.length)
    ∧ ((events.foldl stepStats s).total_time_per_request.length
      = s.total_time_per_request.length + events.length) := by
  induction events generalizing s with
  | nil => simp
  | cons e rest ih =>
      have he : e.outcome ≠ NetOutcome.otherExc := hall e (by simp)
      have hrest : ∀ x ∈ rest, x.outcome ≠ NetOutcome.otherExc :=
        fun x hx => hall x (by simp [hx])
      obtain ⟨h1, h2, h3⟩ := stepStats_handled s e he
      obtain ⟨g1, g2, g3⟩ := ih (stepStats s e) hrest
      refine ⟨?_, ?_, ?_⟩ <;> simp [List.foldl_cons] <;> omega

lemma foldStats_total (events : List ReqEvent) (s : Stats) :
    (events.foldl stepStats s).total_requests = s.total_requests := by
  induction events generalizing s with
  | nil => rfl
  | cons e rest ih => simp [List.foldl_cons, ih, stepStats_total]

lemma foldStats_nodup (events : List ReqEvent) (s : Stats)
    (h : (s.status_code_counts.map Prod.fst).Nodup) :
    (((events.foldl stepStats s).status_code_counts).map Prod.fst).Nodup := by
  induction events generalizing s with
  | nil => exact h
  | cons e rest ih => exact ih (stepStats s e) (stepStats_nodup s e h)

lemma semRun_inv (c : Nat) (tr : List SemEvent) :
    ∀ s s' : SemState, s.value + s.holders = c →
      semRun s tr = some s' → s'.value + s'.holders = c := by
  induction tr with
  | nil =>
      intro s s' hinv hrun
      simp only [semRun, Option.some_inj] at hrun
      exact hrun ▸ hinv
  | cons e rest ih =>
      intro s s' hinv hrun
      cases e with
      | acquire =>
          by_cases hv : s.value > 0
          · simp [semRun, semStep, hv] at hrun
            exact ih _ s' (by simp; omega) hrun
          · simp [semRun, semStep, hv] at hrun
      | release =>
          by_cases hh : s.holders > 0
          · simp [semRun, semStep, hh] at hrun
            exact ih _ s' (by simp; omega) hrun
          · simp [semRun, semStep, hh] at hrun

set_option maxRecDepth 4096 in
lemma toHex2_decode : ∀ b : Fin 256, fromHex2 (toHex2 b.val) = b.val := by
  decide

set_option maxRecDepth 4096 in
lemma toHex2_shape :
    ∀ b : Fin 256,
      (toHex2 b.val).length = 2
        ∧ (toHex2 b.val).data.all isUpperHexDigit = true := by
  decide

lemma targetUrl_inj (base : String) :
    Function.Injective (fun x : Fin 256 => targetUrl base x.val) := by
  intro a b h
  simp only [targetUrl] at h
  have hdata := congrArg String.data h
  simp only [String.data_append] at hdata
  have hhex : (toHex2 a.val).data = (toHex2 b.val).data :=
    List.append_cancel_left hdata
  have : fromHex2 (toHex2 a.val) = fromHex2 (toHex2 b.val) := by
    simp [fromHex2, hhex]
  rw [toHex2_decode a, toHex2_decode b] at this
  exact Fin.ext this

lemma mod_1000_of_mod_10000 {n : Nat} (h : n % 10000 = 0) : n % 1000 = 0 := by
  omega

/-! ### Claims -/

/-- C1: Conservation of bookkeeping.  For a run in which every dispatched
request completes (no event is an unhandled exception) and exactly
`total_requests` events occur: at run end
`successful_requests + failed_requests = total_requests`, and at every
observation point between completed-request updates (i.e. after any prefix
of the event sequence) the values of `status_code_counts` sum to
`successful_requests + failed_requests` and `per_request_latency` has
length `successful_requests + failed_requests`. -/
theorem bookkeeping_conservation (n : Nat) (events : List ReqEvent)
    (hall : ∀ e ∈ events, e.outcome ≠ NetOutcome.otherExc)
    (hlen : events.length = n) :
    ((runStats n events).successful_requests
        + (runStats n events).failed_requests
      = (runStats n events).total_requests)
    ∧ ∀ pre suf : List ReqEvent, events = pre ++ suf →
        (sumCounts (runStats n pre).status_code_counts
          = (runStats n pre).successful_requests
              + (runStats n pre).failed_requests)
        ∧ ((runStats n pre).total_time_per_request.length
          = (runStats n pre).successful_requests
              + (runStats n pre).failed_requests) := by
  constructor
  · obtain ⟨h1, _, _⟩ := foldStats_handled events (initStats n) hall
    have ht := foldStats_total events (initStats n)
    simp only [runStats] at *
    simp [initStats] at h1 ht ⊢
    omega
  · intro pre suf hsplit
    have hallpre : ∀ e ∈ pre, e.outcome ≠ NetOutcome.otherExc :=
      fun e he => hall e (by simp [hsplit, he])
    obtain ⟨h1, h2, h3⟩ := foldStats_handled pre (initStats n) hallpre
    simp only [runStats] at *
    simp [initStats, sumCounts] at h1 h2 h3 ⊢
    omega

/-- Witness for C1 at a concrete run: two requests, one 200 response and
one timeout. -/
theorem bookkeeping_conservation_witness :
    ((runStats 2 [⟨NetOutcome.response 200, 0, 3⟩,
        ⟨NetOutcome.timeoutError, 1, 7⟩]).successful_requests
      + (runStats 2 [⟨NetOutcome.response 200, 0, 3⟩,
        ⟨NetOutcome.timeoutError, 1, 7⟩]).failed_requests
      = (runStats 2 [⟨NetOutcome.response 200, 0, 3⟩,
        ⟨NetOutcome.timeoutError, 1, 7⟩]).total_requests)
    ∧ (sumCounts (runStats 2 [⟨NetOutcome.response 200, 0, 3⟩]).status_code_counts
        = (runStats 2 [⟨NetOutcome.response 200, 0, 3⟩]).successful_requests
            + (runStats 2 [⟨NetOutcome.response 200, 0, 3⟩]).failed_requests)
    ∧ ((runStats 2 [⟨NetOutcome.response 200, 0, 3⟩]).total_time_per_request.length
        = (runStats 2 [⟨NetOutcome.response 200, 0, 3⟩]).successful_requests
            + (runStats 2 [⟨NetOutcome.response 200, 0, 3⟩]).failed_requests) := by
  have h := bookkeeping_conservation 2
    [⟨NetOutcome.response 200, 0, 3⟩, ⟨NetOutcome.timeoutError, 1, 7⟩]
    (by intro e he; fin_cases he <;> simp) rfl
  exact ⟨h.1, h.2 [⟨NetOutcome.response 200, 0, 3⟩]
    [⟨NetOutcome.timeoutError, 1, 7⟩] rfl⟩

/-- C2: Timeout classification.  When the HEAD call raises the
connect-timeout exception (`asyncio.TimeoutError`), `fetch_head` records
the outcome label `"Timeout"`, increments `failed_requests` by one, leaves
`successful_requests` alone, and appends the elapsed time. -/
theorem timeout_classification (st en : Int) (s : Stats) :
    fetch_head NetOutcome.timeoutError st en s
      = some { s with
          failed_requests := s.failed_requests + 1,
          status_code_counts := incrCounter "Timeout" s.status_code_counts,
          total_time_per_request :=
            s.total_time_per_request ++ [en - st] } := rfl

/-- C3: Success classification.  A received response with any numeric
status code is labelled with the decimal status string and increments
`successful_requests` (never `failed_requests`); conversely,
`failed_requests` grows only on the `ClientError`/`TimeoutError`
(transport-failure) branches. -/
theorem success_classification (st en : Int) (s : Stats) (code : Nat) :
    (fetch_head (NetOutcome.response code) st en s
      = some { s with
          successful_requests := s.successful_requests + 1,
          status_code_counts :=
            incrCounter (toString code) s.status_code_counts,
          total_time_per_request :=
            s.total_time_per_request ++ [en - st] })
    ∧ ∀ (o : NetOutcome) (s' : Stats),
        fetch_head o st en s = some s' →
        s.failed_requests < s'.failed_requests →
        o = NetOutcome.clientError ∨ o = NetOutcome.timeoutError := by
  refine ⟨rfl, ?_⟩
  intro o s' hsome hlt
  cases o with
  | response code' =>
      simp [fetch_head, tryExceptStep] at hsome
      rw [← hsome] at hlt
      simp at hlt
  | clientError => exact Or.inl rfl
  | timeoutError => exact Or.inr rfl
  | otherExc => simp [fetch_head, tryExceptStep] at hsome

/-- Witness for C3 at a concrete input: a 404 response on the empty stats,
and the converse direction applied to a concrete `ClientError` event. -/
theorem success_classification_witness :
    (fetch_head (NetOutcome.response 404) 0 3 (initStats 1)
      = some { total_requests := 1,
               successful_requests := 1,
               failed_requests := 0,
               status_code_counts := [("404", 1)],
               total_time_per_request := [3] })
    ∧ (NetOutcome.clientError = NetOutcome.clientError
        ∨ NetOutcome.clientError = NetOutcome.timeoutError) := by
  have h := success_classification 0 3 (initStats 1) 404
  refine ⟨by rw [h.1]; rfl, ?_⟩
  exact h.2 NetOutcome.clientError
    { total_requests := 1, successful_requests := 0, failed_requests := 1,
      status_code_counts := [("NetworkError", 1)],
      total_time_per_request := [3] } rfl (by decide)

/-- C4: Concurrency bound.  Along any sequence of gate events that is
executable from the initial semaphore state of capacity `c`, the number of
requests holding a slot never exceeds `c` (every reachable state, final
state of any executable prefix, satisfies `holders ≤ c`). -/
theorem concurrency_bound (c : Nat) (tr : List SemEvent) (s' : SemState)
    (h : semRun (semInit c) tr = some s') : s'.holders ≤ c := by
  have hinv := semRun_inv c tr (semInit c) s' (by simp [semInit]) h
  omega

/-- Witness for C4: capacity 2 with trace acquire, acquire, release,
acquire, reaching a state with 2 holders. -/
theorem concurrency_bound_witness :
    SemState.holders { value := 0, holders := 2 } ≤ 2 :=
  concurrency_bound 2
    [SemEvent.acquire, SemEvent.acquire, SemEvent.release, SemEvent.acquire]
    { value := 0, holders := 2 } rfl

/-- C5: Exactly-once side effects.  On every handled branch
(response/NetworkError/Timeout) `fetch_head` increments exactly one entry
of `status_code_counts` — the single label of the branch taken — and
appends exactly one elapsed-duration value (end time minus start time) to
the latency list. -/
theorem exactly_once_side_effects (o : NetOutcome) (st en : Int) (s : Stats)
    (h : o ≠ NetOutcome.otherExc) :
    ∃ (s' : Stats) (label : String),
      fetch_head o st en s = some s'
      ∧ ((∃ code : Nat, o = NetOutcome.response code
            ∧ label = toString code)
          ∨ (o = NetOutcome.clientError ∧ label = "NetworkError")
          ∨ (o = NetOutcome.timeoutError ∧ label = "Timeout"))
      ∧ s'.status_code_counts = incrCounter label s.status_code_counts
      ∧ sumCounts s'.status_code_counts
          = sumCounts s.status_code_counts + 1
      ∧ s'.total_time_per_request
          = s.total_time_per_request ++ [en - st] := by
  cases o with
  | response code =>
      exact ⟨_, toString code, rfl, Or.inl ⟨code, rfl, rfl⟩, rfl,
        sumCounts_incrCounter _ _, rfl⟩
  | clientError =>
      exact ⟨_, "NetworkError", rfl, Or.inr (Or.inl ⟨rfl, rfl⟩), rfl,
        sumCounts_incrCounter _ _, rfl⟩
  | timeoutError =>
      exact ⟨_, "Timeout", rfl, Or.inr (Or.inr ⟨rfl, rfl⟩), rfl,
        sumCounts_incrCounter _ _, rfl⟩
  | otherExc => exact absurd rfl h

/-- Witness for C5 at a concrete input: a NetworkError event on the empty
stats of a one-request run. -/
theorem exactly_once_side_effects_witness :
    ∃ (s' : Stats) (label : String),
      fetch_head NetOutcome.clientError 1 4 (initStats 1) = some s'
      ∧ ((∃ code : Nat, NetOutcome.clientError = NetOutcome.response code
            ∧ label = toString code)
          ∨ (NetOutcome.clientError = NetOutcome.clientError
              ∧ label = "NetworkError")
          ∨ (NetOutcome.clientError = NetOutcome.timeoutError
              ∧ label = "Timeout"))
      ∧ s'.status_code_counts
          = incrCounter label (initStats 1).status_code_counts
      ∧ sumCounts s'.status_code_counts
          = sumCounts (initStats 1).status_code_counts + 1
      ∧ s'.total_time_per_request
          = (initStats 1).total_time_per_request ++ [(4 : Int) - 1] :=
  exactly_once_side_effects NetOutcome.clientError 1 4 (initStats 1)
    (by decide)

/-- C6: URL construction.  Every generated byte `b` lies in `[0, 255]`
(`random.randint(0, 255)` is inclusive on both ends); the target URL is
the base URL with trailing slashes removed, then `"/evidence/"`, then `b`
rendered as exactly two uppercase hexadecimal digits; and for a fixed base
URL there are exactly 256 possible target URLs. -/
theorem url_construction (base : String) (b : Fin 256) :
    b.val ≤ 255
    ∧ targetUrl base b.val
        = rstripSlash base ++ "/evidence/" ++ toHex2 b.val
    ∧ (toHex2 b.val).length = 2
    ∧ (toHex2 b.val).data.all isUpperHexDigit = true
    ∧ (Finset.image (fun x : Fin 256 => targetUrl base x.val)
        Finset.univ).card = 256 := by
  obtain ⟨hlen, hhex⟩ := toHex2_shape b
  refine ⟨Nat.le_of_lt_succ b.isLt, rfl, hlen, hhex, ?_⟩
  rw [Finset.card_image_of_injective Finset.univ (targetUrl_inj base),
    Finset.card_univ, Fintype.card_fin]

/-- C7 counterexample: with `request_count = 5`, the 5th (final)
submission emits a progress line although 5 is not a multiple of 1000, so
"emitted iff the submission count is a multiple of 1000" is false. -/
theorem progress_schedule_counterexample :
    emitsLine 5 5 = true ∧ ¬ (5 % 1000 = 0) := by decide

/-- C7 (amended): a progress line showing submitted/total is emitted after
the `n`-th submission iff `n` is a multiple of 1000 or `n` equals
`request_count` (the final submission); the loop pauses for 1 second after
the `n`-th submission iff `n` is a multiple of 10000, and at no other
point. -/
theorem progress_schedule (n total : Nat) :
    (emitsLine n total = true ↔ (n % 1000 = 0 ∨ n = total))
    ∧ (pausesAfter n total = true ↔ n % 10000 = 0) := by
  constructor
  · simp only [emitsLine, progressOutput]
    by_cases h10 : n % 10000 = 0
    · simp [h10, mod_1000_of_mod_10000 h10]
    · by_cases h1 : n % 1000 = 0
      · simp [h10, h1]
      · by_cases ht : n = total
        · subst ht
          simp [h10, h1]
        · simp [h10, h1, ht]
  · simp [pausesAfter]

/-- Witness for C7 (amended) at concrete inputs: submission 2000 of 5000
emits a line, and submission 30000 of 50000 pauses. -/
theorem progress_schedule_witness :
    emitsLine 2000 5000 = true ∧ pausesAfter 30000 50000 = true := by
  constructor
  · exact (progress_schedule 2000 5000).1.mpr (Or.inl (by norm_num))
  · exact (progress_schedule 30000 50000).2.mpr (by norm_num)

/-- C8: RPS guard.  The reported requests-per-second value is
`total_requests / overall_duration` when the duration is strictly
positive and `0` when the duration is `≤ 0`; over the rationals it is a
total function, so it is never NaN, infinite, or a crash. -/
theorem rps_guard (total : Nat) (d : ℚ) :
    (0 < d → rps total d = (total : ℚ) / d)
    ∧ (d ≤ 0 → rps total d = 0) := by
  constructor
  · intro h
    simp [rps, h]
  · intro h
    simp [rps, not_lt.mpr h]

/-- Witness for C8 at concrete inputs: 10 requests in 2 seconds give RPS 5;
a zero-length run reports RPS 0. -/
theorem rps_guard_witness : rps 10 2 = 5 ∧ rps 10 0 = 0 := by
  constructor
  · rw [(rps_guard 10 2).1 (by norm_num)]
    norm_num
  · exact (rps_guard 10 0).2 le_rfl

/-- C9: Sorted report.  For the final `status_code_counts` of any run, the
printed distribution (`sorted(items())`) lists every entry of the mapping
exactly once (it is a permutation of the mapping's entries) in strictly
ascending lexicographic order of the label strings. -/
theorem sorted_report (n : Nat) (events : List ReqEvent) :
    List.Perm
      (sortedItems (runStats n events).status_code_counts)
      (runStats n events).status_code_counts
    ∧ List.Pairwise (fun a b : String × Nat => a.1 < b.1)
        (sortedItems (runStats n events).status_code_counts) := by
  haveI htot : IsTotal (String × Nat) (fun a b : String × Nat => a.1 ≤ b.1) :=
    ⟨fun a b => le_total a.1 b.1⟩
  haveI htr : IsTrans (String × Nat) (fun a b : String × Nat => a.1 ≤ b.1) :=
    ⟨fun _ _ _ hab hbc => le_trans hab hbc⟩
  set c := (runStats n events).status_code_counts with hc
  have hperm : List.Perm (sortedItems c) c :=
    List.perm_insertionSort (fun a b : String × Nat => a.1 ≤ b.1) c
  refine ⟨hperm, ?_⟩
  have hle : List.Pairwise (fun a b : String × Nat => a.1 ≤ b.1)
      (sortedItems c) :=
    List.sorted_insertionSort (fun a b : String × Nat => a.1 ≤ b.1) c
  have hnd : ((runStats n events).status_code_counts.map Prod.fst).Nodup :=
    foldStats_nodup events (initStats n) (by simp [initStats])
  have hndSorted : ((sortedItems c).map Prod.fst).Nodup :=
    ((hperm.map Prod.fst).nodup_iff).mpr (hc ▸ hnd)
  have hne : List.Pairwise (fun a b : String × Nat => a.1 ≠ b.1)
      (sortedItems c) :=
    (List.pairwise_map).mp hndSorted
  exact (hle.and hne).imp fun h => lt_of_le_of_ne h.1 h.2

/-- C10: Unhandled exceptions leave the stats untouched.  If the HEAD call
raises an exception matching neither `aiohttp.ClientError` nor
`asyncio.TimeoutError`, the `status` local is never bound, the `finally`
clause fails on the unbound name before appending a latency, and the
request contributes nothing to any stats field; recording succeeds exactly
for the three handled outcome kinds. -/
theorem unhandled_exception_unrecorded (st en : Int) (s : Stats) :
    fetch_head NetOutcome.otherExc st en s = none
    ∧ stepStats s
        { outcome := NetOutcome.otherExc, startT := st, endT := en } = s
    ∧ ∀ o : NetOutcome,
        (fetch_head o st en s).isSome = true ↔ o ≠ NetOutcome.otherExc := by
  refine ⟨rfl, rfl, ?_⟩
  intro o
  cases o <;> simp [fetch_head, tryExceptStep]

end WebdavStress
